import Mathlib

/-!
Shallow embedding of the passkey authentication & session core of the
serverless-bbs repository (worker routes `auth.ts`, the admin route file,
and the private-message route `messages.ts`), together with proofs about
the claims of its specification.

Strings are modelled as `List Char` (`Str`), the Cloudflare KV namespace as
an association list keyed by `Str`, and the D1 database as in-memory lists
of rows.  Randomness (UUID session tokens, fresh user ids, challenge
nonces) is determinized by passing the fresh values as explicit arguments.
JavaScript string truthiness (`if (!value)`) is modelled explicitly:
the empty string is falsy.
-/

namespace Bbs

abbrev Str := List Char

abbrev KV := List (Str × Str)

/-- `kv.get(key)` of the Cloudflare KV store: first binding for the key. -/
def kvGet : KV → Str → Option Str
  | [], _ => none
  | e :: rest, k => if e.1 = k then some e.2 else kvGet rest k

/-- `kv.delete(key)`: removes every binding for the key; absent keys are a no-op. -/
def kvDelete : KV → Str → KV
  | [], _ => []
  | e :: rest, k => if e.1 = k then kvDelete rest k else e :: kvDelete rest k

/-- `kv.put(key, value, ttl)`: overwrite-on-collision (TTL is not modelled). -/
def kvPut (kv : KV) (k v : Str) : KV :=
  (k, v) :: kvDelete kv k

/-- JavaScript string truthiness: the empty string is falsy. -/
def jsTruthy (s : Str) : Bool := !s.isEmpty

/-- JavaScript truthiness of a nullable string value (`if (!value)`). -/
def jsTruthyOpt : Option Str → Bool
  | none => false
  | some s => jsTruthy s

/-- JavaScript `header.split(sep)` for a one-character separator. -/
def jsSplit (sep : Char) : Str → List Str
  | [] => [[]]
  | c :: rest =>
    match jsSplit sep rest with
    | [] => [[c]]
    | g :: gs => if c = sep then [] :: g :: gs else (c :: g) :: gs

/-- JavaScript `s.startsWith(pre)`. -/
def jsStartsWith (s pre : Str) : Bool := pre.isPrefixOf s

/-- JavaScript `arr[0]` on a split result (a split result is never empty). -/
def jsIdx0 : List Str → Str
  | x :: _ => x
  | _ => []

/-- JavaScript `arr[1]` on a split result; the handlers only index after
establishing the array has a second element. -/
def jsIdx1 : List Str → Str
  | _ :: x :: _ => x
  | _ => []

/-- Row of the `Users` table (the columns the auth core reads). -/
structure UserRow where
  id : Str
  username : Str
  email : Str
  role : Str
deriving DecidableEq

/-- Row of the `Passkeys` table. -/
structure PasskeyRow where
  id : Str
  user_id : Str
  pubkey_blob : Nat
  sign_counter : Nat
deriving DecidableEq

/-- The D1 relational store (the tables the auth core touches). -/
structure DB where
  users : List UserRow
  passkeys : List PasskeyRow
deriving DecidableEq

/-- Combined persistent state: D1 database plus the `KV_SESSIONS` namespace. -/
structure St where
  db : DB
  kv : KV
deriving DecidableEq

/-- Store operations a handler performs, in program order. -/
inductive Op where
  | kvGetOp (key : Str)
  | kvPutOp (key value : Str)
  | kvDeleteOp (key : Str)
  | dbGetUser (username email : Str)
  | dbInsertUser (id : Str)
  | dbListPasskeys (userId : Str)
  | dbGetPasskey (id : Str)
  | dbGetUserById (id : Str)
  | dbInsertPasskey (id userId : Str) (counter : Nat)
  | dbUpdateCounter (id : Str) (counter : Nat)
deriving DecidableEq

/-- Does the operation write to the `Passkeys` table? -/
def Op.writesPasskeys : Op → Bool
  | .dbInsertPasskey _ _ _ => true
  | .dbUpdateCounter _ _ => true
  | _ => false

/-- Outcome of a handler, keyed by the stable machine-readable error kind
(`ERROR_CODES` + HTTP status) or the success payload. -/
inductive ApiResult where
  | challengeIssued
  | messageSent (conversationId : Nat)
  | listOk
  | verified (token : Str)
  | proceed (u : UserRow)
  | sessionValid (u : UserRow)
  | sessionInvalid
  | loggedOut
  | validationError
  | challengeExpired
  | notFound
  | verificationFailed
  | forbidden
  | conflict
  | unauthorized
deriving DecidableEq

/-- Key under which a challenge nonce is stored (`challenge:<nonce>`). -/
def challengeKey (c : Str) : Str := "challenge:".toList ++ c

/-- Key under which a session token is stored (`session:<token>`). -/
def sessionKey (t : Str) : Str := "session:".toList ++ t

/-- Lookup `SELECT * FROM Users WHERE id = ?`. -/
def getUserById (db : DB) (uid : Str) : Option UserRow :=
  db.users.find? fun u => decide (u.id = uid)

/-- Lookup of a passkey by credential id (`getPasskeyById`). -/
def getPasskeyById (db : DB) (pid : Str) : Option PasskeyRow :=
  db.passkeys.find? fun p => decide (p.id = pid)

/-- Lookup of all passkeys of one user (`getUserPasskeys`). -/
def getUserPasskeys (db : DB) (uid : Str) : List PasskeyRow :=
  db.passkeys.filter fun p => decide (p.user_id = uid)

/-- `UPDATE Passkeys SET sign_counter = ? WHERE id = ?`. -/
def updateCounter (db : DB) (pid : Str) (n : Nat) : DB :=
  { db with
    passkeys := db.passkeys.map fun p =>
      if p.id = pid then { p with sign_counter := n } else p }

/-- `INSERT INTO Passkeys (id, user_id, pubkey_blob, sign_counter, ...)`. -/
def insertPasskey (db : DB) (pid uid : Str) (pk ctr : Nat) : DB :=
  { db with passkeys := db.passkeys ++ [⟨pid, uid, pk, ctr⟩] }

/-- Insertion of a fresh `Users` row. -/
def insertUser (db : DB) (u : UserRow) : DB :=
  { db with users := db.users ++ [u] }

/-- Modelled from the spec: `getUser` is defined in `lib/passkeys`, which is not
among the provided sources.  Its call site in `POST /register/challenge` passes
`(username, email)` and reports the conflict "username or email already
registered", so it returns the first user whose username or email matches. -/
def getUser (db : DB) (username email : Str) : Option UserRow :=
  db.users.find? fun u => decide (u.username = username) || decide (u.email = email)

/-- Modelled from the spec: `getOrCreateUser` is defined in `lib/passkeys`,
which is not among the provided sources.  Spec section 3 lists the User
attributes (id, username, email, role); the call-site comment in
`auth.ts` ("get or create user"), the function's name, and the flow — the
challenge stores `user.id`, and `register/verify` inserts only a `Passkeys`
row — fix get-or-create semantics: return the matching user if one exists,
otherwise insert a fresh row (default role `user`) and return it.  The
second component reports whether a row was inserted. -/
def getOrCreateUser (db : DB) (username email freshId : Str) :
    UserRow × DB × Bool :=
  match getUser db username email with
  | some u => (u, db, false)
  | none =>
    let u : UserRow := ⟨freshId, username, email, "user".toList⟩
    (u, insertUser db u, true)

/-- Modelled from the spec: the counter policy of the third-party verifier
`verifyAuthenticationResponse` (spec section 4.2 step 4): the assertion is
accepted when the cryptographic signature checks pass (`sigValid`) and the
reported counter is strictly greater than the stored one, with the explicit
relaxation that authenticators always reporting zero are accepted when both
counters are zero; on acceptance it reports the new counter value. -/
def verifyAuthenticationResponseM (sigValid : Bool) (newCounter storedCounter : Nat) :
    Option Nat :=
  if sigValid = true ∧ (storedCounter < newCounter ∨ (newCounter = 0 ∧ storedCounter = 0))
  then some newCounter else none

/-- Authentication ceremony response as the handlers see it.  `credId` is
`response.id`; `clientChallenge` is the result of extracting the challenge
from the signed client data (`none` models malformed base64/JSON);
`sigValid` abstracts the outcome of the third-party cryptographic
signature/origin/rpId checks; `newCounter` is the authenticator-reported
counter. -/
structure AuthResponse where
  credId : Str
  clientChallenge : Option Str
  sigValid : Bool
  newCounter : Nat
deriving DecidableEq

/-- Registration ceremony response: `attValid` abstracts the outcome of the
third-party attestation verification, and `credId`/`pubkey`/`counter` are the
values it extracts on success. -/
structure RegResponse where
  clientChallenge : Option Str
  attValid : Bool
  credId : Str
  pubkey : Nat
  counter : Nat
deriving DecidableEq

/-- Modelled from the spec: acceptance of the third-party
`verifyRegistrationResponse`; on success it yields the new credential id,
public key and initial counter. -/
def verifyRegistrationResponseM (resp : RegResponse) : Option (Str × Nat × Nat) :=
  if resp.attValid = true then some (resp.credId, resp.pubkey, resp.counter) else none

/-- `getAndDeleteChallenge` of `auth.ts`: read the challenge key, delete it
only when the value is truthy, and return the read value. -/
def getAndDeleteChallenge (kv : KV) (challenge : Str) : Option Str × KV × List Op :=
  let key := challengeKey challenge
  match kvGet kv key with
  | some v =>
    if jsTruthy v then (some v, kvDelete kv key, [.kvGetOp key, .kvDeleteOp key])
    else (some v, kv, [.kvGetOp key])
  | none => (none, kv, [.kvGetOp key])

/-- `POST /register/challenge` of `auth.ts`.  The `REGISTER_ENABLED` flag, the
fresh user id minted inside `getOrCreateUser`, and the nonce generated by
`generateRegistrationOptions` are explicit arguments.  Schema validation of
username/email happens before the handler and is not modelled. -/
def registerChallenge (st : St) (registerEnabled : Bool)
    (username email freshUserId nonce : Str) : ApiResult × St × List Op :=
  if registerEnabled = false then (.forbidden, st, [])
  else
    match getUser st.db username email with
    | some _ => (.conflict, st, [.dbGetUser username email])
    | none =>
      match getOrCreateUser st.db username email freshUserId with
      | (user, db1, created) =>
        let kv1 := kvPut st.kv (challengeKey nonce) user.id
        (.challengeIssued, ⟨db1, kv1⟩,
          [.dbGetUser username email, .dbGetUser username email] ++
            (if created then [.dbInsertUser user.id] else []) ++
            [.dbListPasskeys user.id, .kvPutOp (challengeKey nonce) user.id])

/-- `POST /register/verify` of `auth.ts`: extract the challenge from the client
data, consume it with `getAndDeleteChallenge`, verify the attestation, insert
the new passkey bound to the user id the challenge stored, and mint a
session. -/
def registerVerify (st : St) (resp : RegResponse) (freshToken : Str) :
    ApiResult × St × List Op :=
  match resp.clientChallenge with
  | none => (.validationError, st, [])
  | some ch =>
    match getAndDeleteChallenge st.kv ch with
    | (value, kv1, ops1) =>
      if jsTruthyOpt value = false then (.challengeExpired, { st with kv := kv1 }, ops1)
      else
        let uid := value.getD []
        match verifyRegistrationResponseM resp with
        | none => (.verificationFailed, { st with kv := kv1 }, ops1)
        | some (cid, pk, ctr) =>
          let db1 := insertPasskey st.db cid uid pk ctr
          let kv2 := kvPut kv1 (sessionKey freshToken) uid
          (.verified freshToken, ⟨db1, kv2⟩,
            ops1 ++ [.dbInsertPasskey cid uid ctr,
                     .kvPutOp (sessionKey freshToken) uid])

/-- `POST /login/challenge` of `auth.ts`: store the fresh nonce with the
sentinel value `"true"`. -/
def loginChallenge (st : St) (nonce : Str) : ApiResult × St × List Op :=
  (.challengeIssued,
    { st with kv := kvPut st.kv (challengeKey nonce) "true".toList },
    [.kvPutOp (challengeKey nonce) "true".toList])

/-- `POST /login/verify` of `auth.ts`: extract the challenge, consume it with
`getAndDeleteChallenge`, look the passkey up, verify the assertion, update the
signature counter, and mint a session. -/
def loginVerify (st : St) (resp : AuthResponse) (freshToken : Str) :
    ApiResult × St × List Op :=
  match resp.clientChallenge with
  | none => (.validationError, st, [])
  | some ch =>
    match getAndDeleteChallenge st.kv ch with
    | (value, kv1, ops1) =>
      if jsTruthyOpt value = false then (.challengeExpired, { st with kv := kv1 }, ops1)
      else
        match getPasskeyById st.db resp.credId with
        | none =>
          (.notFound, { st with kv := kv1 }, ops1 ++ [.dbGetPasskey resp.credId])
        | some pk =>
          match verifyAuthenticationResponseM resp.sigValid resp.newCounter pk.sign_counter with
          | none =>
            (.verificationFailed, { st with kv := kv1 },
              ops1 ++ [.dbGetPasskey resp.credId])
          | some newCounter =>
            let db1 := updateCounter st.db pk.id newCounter
            let kv2 := kvPut kv1 (sessionKey freshToken) pk.user_id
            (.verified freshToken, ⟨db1, kv2⟩,
              ops1 ++ [.dbGetPasskey resp.credId,
                       .dbUpdateCounter pk.id newCounter,
                       .kvPutOp (sessionKey freshToken) pk.user_id])

/-- Literal `"admin"` as a character list. -/
def adminStr : Str := "admin".toList

/-- `POST /admin/login/verify` of the admin route file: reads the challenge
with a plain `kv.get` (no delete), verifies the assertion, loads the user,
checks the admin role (with the `username === 'admin'` escape hatch), updates
the counter, deletes the challenge, and mints a 24h session — in that order. -/
def adminLoginVerify (st : St) (resp : AuthResponse) (freshToken : Str) :
    ApiResult × St × List Op :=
  match resp.clientChallenge with
  | none => (.validationError, st, [])
  | some ch =>
    let key := challengeKey ch
    if jsTruthyOpt (kvGet st.kv key) = false then
      (.challengeExpired, st, [.kvGetOp key])
    else
      match getPasskeyById st.db resp.credId with
      | none => (.notFound, st, [.kvGetOp key, .dbGetPasskey resp.credId])
      | some pk =>
        match verifyAuthenticationResponseM resp.sigValid resp.newCounter pk.sign_counter with
        | none =>
          (.verificationFailed, st, [.kvGetOp key, .dbGetPasskey resp.credId])
        | some newCounter =>
          match getUserById st.db pk.user_id with
          | none =>
            (.forbidden, st,
              [.kvGetOp key, .dbGetPasskey resp.credId, .dbGetUserById pk.user_id])
          | some user =>
            if user.role ≠ adminStr ∧ user.username ≠ adminStr then
              (.forbidden, st,
                [.kvGetOp key, .dbGetPasskey resp.credId, .dbGetUserById pk.user_id])
            else
              let db1 := updateCounter st.db pk.id newCounter
              let kv1 := kvPut (kvDelete st.kv key) (sessionKey freshToken) user.id
              (.verified freshToken, ⟨db1, kv1⟩,
                [.kvGetOp key, .dbGetPasskey resp.credId, .dbGetUserById pk.user_id,
                 .dbUpdateCounter pk.id newCounter, .kvDeleteOp key,
                 .kvPutOp (sessionKey freshToken) user.id])

/-- Literal `"Bearer "` as a character list. -/
def bearerSp : Str := "Bearer ".toList

/-- `POST /logout` of `auth.ts`: require a `Bearer` header, then delete the
session key for `header.split(' ')[1]`. -/
def logout (st : St) (authHeader : Option Str) : ApiResult × St × List Op :=
  match authHeader with
  | none => (.unauthorized, st, [])
  | some h =>
    if jsStartsWith h bearerSp = false then (.unauthorized, st, [])
    else
      let token := jsIdx1 (jsSplit ' ' h)
      (.loggedOut, { st with kv := kvDelete st.kv (sessionKey token) },
        [.kvDeleteOp (sessionKey token)])

/-- `GET /session` of `auth.ts`: a missing or non-`Bearer` header yields a
success response with `valid: false`; otherwise resolve the token, load the
user, and lazily delete the session when the user row is gone. -/
def sessionGet (st : St) (authHeader : Option Str) : ApiResult × St × List Op :=
  match authHeader with
  | none => (.sessionInvalid, st, [])
  | some h =>
    if jsStartsWith h bearerSp = false then (.sessionInvalid, st, [])
    else
      let token := jsIdx1 (jsSplit ' ' h)
      let key := sessionKey token
      match kvGet st.kv key with
      | none => (.sessionInvalid, st, [.kvGetOp key])
      | some uid =>
        if jsTruthy uid = false then (.sessionInvalid, st, [.kvGetOp key])
        else
          match getUserById st.db uid with
          | none =>
            (.sessionInvalid, { st with kv := kvDelete st.kv key },
              [.kvGetOp key, .dbGetUserById uid, .kvDeleteOp key])
          | some user => (.sessionValid user, st, [.kvGetOp key, .dbGetUserById uid])

/-- `adminAuthMiddleware` of the admin route file: strict `Bearer <token>`
parsing, session lookup, user load with lazy cleanup of dangling sessions,
then the admin check (`role !== 'admin' && username !== 'admin'` rejects).
`.proceed u` models calling `next()` with the user attached. -/
def adminAuth (st : St) (authHeader : Option Str) : ApiResult × St × List Op :=
  match authHeader with
  | none => (.unauthorized, st, [])
  | some h =>
    let parts := jsSplit ' ' h
    if ¬(parts.length = 2 ∧ jsIdx0 parts = "Bearer".toList) then
      (.unauthorized, st, [])
    else
      let token := jsIdx1 parts
      if jsTruthy token = false then (.unauthorized, st, [])
      else
        let key := sessionKey token
        match kvGet st.kv key with
        | none => (.unauthorized, st, [.kvGetOp key])
        | some uid =>
          if jsTruthy uid = false then (.unauthorized, st, [.kvGetOp key])
          else
            match getUserById st.db uid with
            | none =>
              (.unauthorized, { st with kv := kvDelete st.kv key },
                [.kvGetOp key, .dbGetUserById uid, .kvDeleteOp key])
            | some user =>
              if user.role ≠ adminStr ∧ user.username ≠ adminStr then
                (.forbidden, st, [.kvGetOp key, .dbGetUserById uid])
              else (.proceed user, st, [.kvGetOp key, .dbGetUserById uid])

/-! Private messages (`messages.ts`): body storage indirection through the
S3-compatible object store. -/

/-- Row of the `PrivateMessages` table (the columns the claims need). -/
structure MsgRow where
  id : Nat
  conversation_id : Nat
  author_id : Str
  body : Str
deriving DecidableEq

/-- Row of the `Conversations` table (the columns the claims need). -/
structure ConvRow where
  id : Nat
  user1_id : Str
  user2_id : Str
deriving DecidableEq

/-- State touched by the message routes: D1 tables, the object store
(modelled as a key-value map), and the autoincrement cursors. -/
structure MsgSt where
  users : List UserRow
  conversations : List ConvRow
  messages : List MsgRow
  s3 : KV
  nextConvId : Nat
  nextMsgId : Nat
deriving DecidableEq

/-- JavaScript default `Array.prototype.sort()` comparison on two strings:
lexicographic by code unit (the ids compared here are ASCII UUIDs). -/
def strLe : Str → Str → Bool
  | [], _ => true
  | _ :: _, [] => false
  | c :: a, d :: b => if c = d then strLe a b else decide (c.val < d.val)

/-- Literal `"pm-body/"` as a character list. -/
def pmBodyTag : Str := "pm-body/".toList

/-- `POST /` of `messages.ts` (send): look the recipient up by username,
reject self-send, find or create the conversation for the sorted user-id
pair, upload the body to the object store under `pm-body/<uuid>`, and insert
the message row with the storage key as its `body` column.  The fresh UUID is
an explicit argument; excerpt/unread-count bookkeeping is not modelled. -/
def sendMessage (st : MsgSt) (sender : UserRow) (recipientUsername body freshUuid : Str) :
    ApiResult × MsgSt :=
  match st.users.find? fun u => decide (u.username = recipientUsername) with
  | none => (.notFound, st)
  | some recipient =>
    if recipient.id = sender.id then (.validationError, st)
    else
      let u1 := if strLe sender.id recipient.id then sender.id else recipient.id
      let u2 := if strLe sender.id recipient.id then recipient.id else sender.id
      let found := st.conversations.find? fun cv =>
        decide (cv.user1_id = u1) && decide (cv.user2_id = u2)
      let cid := match found with
        | some cv => cv.id
        | none => st.nextConvId
      let convs := match found with
        | some _ => st.conversations
        | none => st.conversations ++ [⟨st.nextConvId, u1, u2⟩]
      let nextCid := match found with
        | some _ => st.nextConvId
        | none => st.nextConvId + 1
      let key := pmBodyTag ++ freshUuid
      (.messageSent cid,
        { st with
          conversations := convs
          nextConvId := nextCid
          s3 := kvPut st.s3 key body
          messages := st.messages ++ [⟨st.nextMsgId, cid, sender.id, key⟩]
          nextMsgId := st.nextMsgId + 1 })

/-- The retrieval heuristic of `GET /:conversationId`: treat the stored body
as an object-storage key iff its length is under 100 and it contains a slash. -/
def isS3Key (body : Str) : Bool :=
  decide (body.length < 100) && body.contains '/'

/-- Body resolution of `GET /:conversationId`: fetch from the object store
when the heuristic classifies the stored column as a storage key and the
object exists; otherwise return the stored column as-is (legacy inline
bodies). -/
def resolveBody (s3 : KV) (body : Str) : Str :=
  if isS3Key body then
    match kvGet s3 body with
    | some content => content
    | none => body
  else body

/-- Message as returned to the client: row id plus resolved body. -/
structure MsgOut where
  id : Nat
  body : Str
deriving DecidableEq

/-- `GET /:conversationId` of `messages.ts`: participant check, pagination
(`LIMIT pageSize OFFSET (page-1)*pageSize` over `created_at ASC`, modelled as
insertion order), then body resolution per message.  Unread-count clearing is
not modelled. -/
def getMessages (st : MsgSt) (viewer : UserRow) (conversationId page pageSize : Nat) :
    ApiResult × List MsgOut :=
  match st.conversations.find? fun cv => decide (cv.id = conversationId) with
  | none => (.forbidden, [])
  | some cv =>
    if ¬(cv.user1_id = viewer.id ∨ cv.user2_id = viewer.id) then (.forbidden, [])
    else
      let rows := st.messages.filter fun m => decide (m.conversation_id = conversationId)
      let pageRows := (rows.drop ((page - 1) * pageSize)).take pageSize
      (.listOk, pageRows.map fun m => ⟨m.id, resolveBody st.s3 m.body⟩)

/-! Interleaving model for the consumption of one challenge by two concurrent
verification requests.  Each request runs the two store calls of
`getAndDeleteChallenge` as separate atomic steps: step 0 performs `kv.get` on
the challenge key, step 1 performs the conditional `kv.delete` (executed only
when the value read at step 0 was truthy).  `cell` is the stored value of the
one challenge key both requests present. -/

structure RaceState where
  cell : Option Str
  pcA : Nat
  seenA : Option Str
  pcB : Nat
  seenB : Option Str
deriving DecidableEq

/-- One step of request A. -/
def stepA (s : RaceState) : RaceState :=
  match s.pcA with
  | 0 => { s with pcA := 1, seenA := s.cell }
  | 1 => { s with pcA := 2, cell := if jsTruthyOpt s.seenA then none else s.cell }
  | _ => s

/-- One step of request B. -/
def stepB (s : RaceState) : RaceState :=
  match s.pcB with
  | 0 => { s with pcB := 1, seenB := s.cell }
  | 1 => { s with pcB := 2, cell := if jsTruthyOpt s.seenB then none else s.cell }
  | _ => s

/-- Run a schedule: `true` steps request A, `false` steps request B. -/
def raceRun (sched : List Bool) (s : RaceState) : RaceState :=
  match sched with
  | [] => s
  | w :: rest => raceRun rest (if w then stepA s else stepB s)

/-- Initial state: the challenge key holds value `v`, neither request has run. -/
def raceInit (v : Str) : RaceState := ⟨some v, 0, none, 0, none⟩

/-- A request whose `kv.get` observed a truthy value proceeds past the
challenge gate (and, with valid cryptography, to `Verified`); one that
observed absence fails with the expired/unknown-challenge error. -/
def observedChallenge (seen : Option Str) : Bool := jsTruthyOpt seen

/-! Concrete fixtures used by counterexamples and witnesses. -/

/-- Fixture nonce. -/
def nonce1 : Str := "n0".toList

/-- Fixture user id. -/
def uid1 : Str := "u1".toList

/-- Fixture session token. -/
def tok1 : Str := "t1".toList

/-- Fixture credential id. -/
def cred1 : Str := "cred1".toList

/-- Fixture passkey with stored counter 5, owned by `uid1`. -/
def pkRow1 : PasskeyRow := ⟨cred1, uid1, 0, 5⟩

/-- Fixture user whose role is `user` but whose username is the literal
`admin`. -/
def userAdminName : UserRow := ⟨uid1, "admin".toList, "a@x".toList, "user".toList⟩

/-- Fixture user whose role and username are both non-administrative. -/
def userBob : UserRow := ⟨uid1, "bob".toList, "b@x".toList, "user".toList⟩

/-- Fixture state: an outstanding login challenge, `pkRow1`, and
`userAdminName`. -/
def stAdmin : St := ⟨⟨[userAdminName], [pkRow1]⟩, [(challengeKey nonce1, "true".toList)]⟩

/-- Fixture state: an outstanding login challenge, an existing session
`tok1 ↦ uid1`, `pkRow1`, and `userBob`. -/
def stBob : St :=
  ⟨⟨[userBob], [pkRow1]⟩, [(challengeKey nonce1, "true".toList), (sessionKey tok1, uid1)]⟩

/-- Fixture authentication response whose cryptographic checks fail. -/
def respBadSig : AuthResponse := ⟨cred1, some nonce1, false, 6⟩

/-- Fixture authentication response whose cryptographic checks pass and whose
reported counter 6 exceeds the stored 5. -/
def respGood : AuthResponse := ⟨cred1, some nonce1, true, 6⟩

/-- Fixture authentication response reporting counter 4 against stored 5. -/
def respStale : AuthResponse := ⟨cred1, some nonce1, true, 4⟩

/-- Fixture registration response whose attestation verifies. -/
def regRespGood : RegResponse := ⟨some nonce1, true, cred1, 0, 0⟩

/-- Fixture state with no users, no passkeys, no KV entries. -/
def stEmpty : St := ⟨⟨[], []⟩, []⟩

/-- Fixture state holding only the session `tok1 ↦ uid1` with no user rows. -/
def stDangling : St := ⟨⟨[], []⟩, [(sessionKey tok1, uid1)]⟩

/-- Fixture state holding the session `tok1 ↦ uid1` and the user `userBob`. -/
def stLive : St := ⟨⟨[userBob], []⟩, [(sessionKey tok1, uid1)]⟩

/-- Fixture message-route state: only the recipient `bob2` exists. -/
def stMsg : MsgSt := ⟨[⟨"u2".toList, "bob".toList, "b@x".toList, "user".toList⟩], [], [], [], 7, 3⟩

/-- Fixture sender for the message routes. -/
def senderU : UserRow := ⟨uid1, "alice".toList, "a@b".toList, "user".toList⟩

/-! Helper lemmas. -/

theorem kvGet_delete (kv : KV) (k k' : Str) :
    kvGet (kvDelete kv k) k' = if k' = k then none else kvGet kv k' := by
  induction kv with
  | nil => simp [kvGet, kvDelete]
  | cons e rest ih =>
    by_cases he : e.1 = k <;> by_cases hek : e.1 = k' <;> by_cases hk : k' = k <;>
      simp_all [kvGet, kvDelete]

theorem kvGet_put (kv : KV) (k v k' : Str) :
    kvGet (kvPut kv k v) k' = if k' = k then some v else kvGet kv k' := by
  by_cases hk : k' = k
  · simp [kvGet, kvPut, hk]
  · have hkk : ¬k = k' := fun h => hk h.symm
    simp [kvGet, kvPut, hkk, hk, kvGet_delete]

theorem kvGet_put_self (kv : KV) (k v : Str) : kvGet (kvPut kv k v) k = some v := by
  simp [kvGet_put]

theorem kvGet_delete_self (kv : KV) (k : Str) : kvGet (kvDelete kv k) k = none := by
  simp [kvGet_delete]

theorem jsSplit_no_sep (sep : Char) (t : Str) (h : sep ∉ t) :
    jsSplit sep t = [t] := by
  induction t with
  | nil => simp [jsSplit]
  | cons c rest ih =>
    have hc : c ≠ sep := fun hc => h (hc ▸ List.mem_cons_self c rest)
    have hr : sep ∉ rest := fun hr => h (List.mem_cons_of_mem c hr)
    simp [jsSplit, ih hr, hc]

theorem isEmpty_false_of_ne {t : Str} (h : t ≠ []) : t.isEmpty = false := by
  cases t with
  | nil => exact absurd rfl h
  | cons c r => rfl

theorem jsStartsWith_append (pre t : Str) : jsStartsWith (pre ++ t) pre = true := by
  simp [jsStartsWith, List.isPrefixOf_iff_prefix]

theorem bearerSp_eq : bearerSp = ['B', 'e', 'a', 'r', 'e', 'r', ' '] := by decide

theorem jsSplit_bearer (t : Str) (h : ' ' ∉ t) :
    jsSplit ' ' (bearerSp ++ t) = ["Bearer".toList, t] := by
  rw [bearerSp_eq]
  have ht := jsSplit_no_sep ' ' t h
  simp [jsSplit, ht]

theorem challengeKey_ne_sessionKey (c t : Str) : challengeKey c ≠ sessionKey t := by
  intro h
  have h0 := congrArg (fun l => l.headD ' ') h
  simp [challengeKey, sessionKey] at h0

/-! Claim theorems. -/

/-- C9: while the registration-enabled configuration flag is unset or false,
`POST /register/challenge` returns Forbidden with the state untouched and
performs no store operation at all (no user lookup, no user creation, no
challenge write). -/
theorem registration_disabled_guard (st : St) (username email freshUserId nonce : Str) :
    registerChallenge st false username email freshUserId nonce = (.forbidden, st, []) := by
  simp [registerChallenge]

/-- C8: `destroySession` (the logout handler) is idempotent — presenting the
same bearer token twice in a row succeeds both times, the mapping is gone
after the first call, and its absence on the second call is not an error. -/
theorem destroySession_idempotent (st : St) (t : Str) (hsp : ' ' ∉ t) :
    (logout st (some (bearerSp ++ t))).1 = .loggedOut ∧
    kvGet (logout st (some (bearerSp ++ t))).2.1.kv (sessionKey t) = none ∧
    (logout (logout st (some (bearerSp ++ t))).2.1 (some (bearerSp ++ t))).1 = .loggedOut := by
  have hsw := jsStartsWith_append bearerSp t
  have hspl := jsSplit_bearer t hsp
  simp [logout, hsw, hspl, kvGet_delete_self, jsIdx1]

/-- Witness for C8 at a concrete state and token. -/
theorem destroySession_idempotent_witness :
    (logout stDangling (some (bearerSp ++ tok1))).1 = .loggedOut ∧
    kvGet (logout stDangling (some (bearerSp ++ tok1))).2.1.kv (sessionKey tok1) = none ∧
    (logout (logout stDangling (some (bearerSp ++ tok1))).2.1 (some (bearerSp ++ tok1))).1 = .loggedOut :=
  destroySession_idempotent stDangling tok1 (by decide)

/-- C2 fails as stated: challenge consumption is a non-atomic read followed
by a delete, so the interleaving get-A, get-B, delete-A, delete-B lets both
concurrent verification attempts observe the stored challenge value and both
proceed to Verified. -/
theorem challenge_race_counterexample :
    (raceRun [true, false, true, false] (raceInit uid1)).pcA = 2 ∧
    (raceRun [true, false, true, false] (raceInit uid1)).pcB = 2 ∧
    observedChallenge (raceRun [true, false, true, false] (raceInit uid1)).seenA = true ∧
    observedChallenge (raceRun [true, false, true, false] (raceInit uid1)).seenB = true := by
  decide

/-- C2 amended: consumption of a challenge is read-then-delete without
atomicity.  When the two consumptions do not interleave (one request runs
both of its store calls before the other starts), exactly one observes the
value and the other observes absence; equivalently, two successive calls of
`getAndDeleteChallenge` yield the value once and then `none`.  Interleaved
executions, however, may let both succeed. -/
theorem challenge_race_amended (v ch : Str) (kv : KV) (hv : v ≠ [])
    (hkv : kvGet kv (challengeKey ch) = some v) :
    (observedChallenge (raceRun [true, true, false, false] (raceInit v)).seenA = true ∧
     observedChallenge (raceRun [true, true, false, false] (raceInit v)).seenB = false) ∧
    ((getAndDeleteChallenge kv ch).1 = some v ∧
     (getAndDeleteChallenge (getAndDeleteChallenge kv ch).2.1 ch).1 = none) := by
  have hne := isEmpty_false_of_ne hv
  constructor
  · simp [raceRun, stepA, stepB, raceInit, observedChallenge, jsTruthyOpt, jsTruthy, hne]
  · constructor
    · simp [getAndDeleteChallenge, hkv, jsTruthy, hne]
    · simp [getAndDeleteChallenge, hkv, jsTruthy, hne, kvGet_delete_self]

/-- Witness for C2 amended at a concrete value and store. -/
theorem challenge_race_amended_witness :
    (observedChallenge (raceRun [true, true, false, false] (raceInit uid1)).seenA = true ∧
     observedChallenge (raceRun [true, true, false, false] (raceInit uid1)).seenB = false) ∧
    ((getAndDeleteChallenge [(challengeKey nonce1, uid1)] nonce1).1 = some uid1 ∧
     (getAndDeleteChallenge (getAndDeleteChallenge [(challengeKey nonce1, uid1)] nonce1).2.1 nonce1).1 = none) :=
  challenge_race_amended uid1 nonce1 [(challengeKey nonce1, uid1)] (by decide) (by decide)

/-- C1 fails as stated: in the admin-login ceremony a structurally valid
failed verification attempt (here: the cryptographic check fails) does not
delete the challenge — the state is unchanged — and a second verification
attempt presenting the same nonce is not rejected with
ChallengeExpiredOrUnknown; it can even succeed. -/
theorem challenge_single_use_counterexample :
    (adminLoginVerify stAdmin respBadSig tok1).1 = .verificationFailed ∧
    (adminLoginVerify stAdmin respBadSig tok1).2.1 = stAdmin ∧
    (adminLoginVerify (adminLoginVerify stAdmin respBadSig tok1).2.1 respGood tok1).1 =
      .verified tok1 := by
  decide

theorem registerVerify_consumes (st : St) (resp : RegResponse) (tok ch v : Str)
    (hch : resp.clientChallenge = some ch)
    (hv : kvGet st.kv (challengeKey ch) = some v) (hvne : v ≠ []) :
    kvGet (registerVerify st resp tok).2.1.kv (challengeKey ch) = none := by
  have hne := isEmpty_false_of_ne hvne
  cases hM : verifyRegistrationResponseM resp with
  | none =>
    simp [registerVerify, hch, getAndDeleteChallenge, hv, jsTruthy, jsTruthyOpt, hne, hM,
      kvGet_delete_self]
  | some x =>
    obtain ⟨cid, pk, ctr⟩ := x
    simp [registerVerify, hch, getAndDeleteChallenge, hv, jsTruthy, jsTruthyOpt, hne, hM,
      kvGet_put, challengeKey_ne_sessionKey, kvGet_delete_self]

theorem registerVerify_expired (st : St) (resp : RegResponse) (tok ch : Str)
    (hch : resp.clientChallenge = some ch)
    (hv : kvGet st.kv (challengeKey ch) = none) :
    (registerVerify st resp tok).1 = .challengeExpired := by
  simp [registerVerify, hch, getAndDeleteChallenge, hv, jsTruthyOpt]

theorem loginVerify_consumes (st : St) (resp : AuthResponse) (tok ch v : Str)
    (hch : resp.clientChallenge = some ch)
    (hv : kvGet st.kv (challengeKey ch) = some v) (hvne : v ≠ []) :
    kvGet (loginVerify st resp tok).2.1.kv (challengeKey ch) = none := by
  have hne := isEmpty_false_of_ne hvne
  cases hP : getPasskeyById st.db resp.credId with
  | none =>
    simp [loginVerify, hch, getAndDeleteChallenge, hv, jsTruthy, jsTruthyOpt, hne, hP,
      kvGet_delete_self]
  | some pk =>
    cases hM : verifyAuthenticationResponseM resp.sigValid resp.newCounter pk.sign_counter with
    | none =>
      simp [loginVerify, hch, getAndDeleteChallenge, hv, jsTruthy, jsTruthyOpt, hne, hP, hM,
        kvGet_delete_self]
    | some n =>
      simp [loginVerify, hch, getAndDeleteChallenge, hv, jsTruthy, jsTruthyOpt, hne, hP, hM,
        kvGet_put, challengeKey_ne_sessionKey, kvGet_delete_self]

theorem loginVerify_expired (st : St) (resp : AuthResponse) (tok ch : Str)
    (hch : resp.clientChallenge = some ch)
    (hv : kvGet st.kv (challengeKey ch) = none) :
    (loginVerify st resp tok).1 = .challengeExpired := by
  simp [loginVerify, hch, getAndDeleteChallenge, hv, jsTruthyOpt]

theorem adminLoginVerify_expired (st : St) (resp : AuthResponse) (tok ch : Str)
    (hch : resp.clientChallenge = some ch)
    (hv : kvGet st.kv (challengeKey ch) = none) :
    (adminLoginVerify st resp tok).1 = .challengeExpired := by
  simp [adminLoginVerify, hch, hv, jsTruthyOpt]

/-- C1 amended: for the registration and ordinary authentication ceremonies
the challenge is single-use exactly as claimed — any verification attempt
that finds the nonce (whatever its outcome) deletes it, and a replay with
the same nonce is rejected with ChallengeExpiredOrUnknown.  For the admin
login ceremony the challenge is deleted only on a fully successful
verification: after a success, a replay is rejected with
ChallengeExpiredOrUnknown (a failed admin attempt, however, leaves the
challenge in place — see the counterexample). -/
theorem challenge_single_use_amended (st : St) (ch v tokR tokA tokAd : Str)
    (rresp rresp2 : RegResponse) (aresp aresp2 : AuthResponse)
    (pk : PasskeyRow) (u : UserRow) (n : Nat)
    (hv : kvGet st.kv (challengeKey ch) = some v) (hvne : v ≠ [])
    (hr1 : rresp.clientChallenge = some ch) (hr2 : rresp2.clientChallenge = some ch)
    (ha1 : aresp.clientChallenge = some ch) (ha2 : aresp2.clientChallenge = some ch)
    (hpk : getPasskeyById st.db aresp.credId = some pk)
    (hver : verifyAuthenticationResponseM aresp.sigValid aresp.newCounter pk.sign_counter = some n)
    (hu : getUserById st.db pk.user_id = some u)
    (hrole : ¬(u.role ≠ adminStr ∧ u.username ≠ adminStr)) :
    (kvGet (registerVerify st rresp tokR).2.1.kv (challengeKey ch) = none ∧
     (registerVerify (registerVerify st rresp tokR).2.1 rresp2 tokR).1 = .challengeExpired) ∧
    (kvGet (loginVerify st aresp tokA).2.1.kv (challengeKey ch) = none ∧
     (loginVerify (loginVerify st aresp tokA).2.1 aresp2 tokA).1 = .challengeExpired) ∧
    ((adminLoginVerify st aresp tokAd).1 = .verified tokAd ∧
     kvGet (adminLoginVerify st aresp tokAd).2.1.kv (challengeKey ch) = none ∧
     (adminLoginVerify (adminLoginVerify st aresp tokAd).2.1 aresp2 tokAd).1 =
       .challengeExpired) := by
  have hne := isEmpty_false_of_ne hvne
  have hreg := registerVerify_consumes st rresp tokR ch v hr1 hv hvne
  have hlog := loginVerify_consumes st aresp tokA ch v ha1 hv hvne
  have hadmin : adminLoginVerify st aresp tokAd =
      (.verified tokAd,
        ⟨updateCounter st.db pk.id n,
         kvPut (kvDelete st.kv (challengeKey ch)) (sessionKey tokAd) u.id⟩,
        [.kvGetOp (challengeKey ch), .dbGetPasskey aresp.credId, .dbGetUserById pk.user_id,
         .dbUpdateCounter pk.id n, .kvDeleteOp (challengeKey ch),
         .kvPutOp (sessionKey tokAd) u.id]) := by
    simp [adminLoginVerify, ha1, hv, jsTruthy, jsTruthyOpt, hne, hpk, hver, hu, hrole]
  have hadm2 : kvGet (adminLoginVerify st aresp tokAd).2.1.kv (challengeKey ch) = none := by
    rw [hadmin]
    simp [kvGet_put, challengeKey_ne_sessionKey, kvGet_delete_self]
  refine ⟨⟨hreg, ?_⟩, ⟨hlog, ?_⟩, ?_, hadm2, ?_⟩
  · exact registerVerify_expired _ rresp2 tokR ch hr2 hreg
  · exact loginVerify_expired _ aresp2 tokA ch ha2 hlog
  · rw [hadmin]
  · exact adminLoginVerify_expired _ aresp2 tokAd ch ha2 hadm2

/-- Witness for C1 amended at the concrete fixture state. -/
theorem challenge_single_use_amended_witness :
    (kvGet (registerVerify stAdmin regRespGood tok1).2.1.kv (challengeKey nonce1) = none ∧
     (registerVerify (registerVerify stAdmin regRespGood tok1).2.1 regRespGood tok1).1 =
       .challengeExpired) ∧
    (kvGet (loginVerify stAdmin respGood tok1).2.1.kv (challengeKey nonce1) = none ∧
     (loginVerify (loginVerify stAdmin respGood tok1).2.1 respGood tok1).1 =
       .challengeExpired) ∧
    ((adminLoginVerify stAdmin respGood tok1).1 = .verified tok1 ∧
     kvGet (adminLoginVerify stAdmin respGood tok1).2.1.kv (challengeKey nonce1) = none ∧
     (adminLoginVerify (adminLoginVerify stAdmin respGood tok1).2.1 respGood tok1).1 =
       .challengeExpired) :=
  challenge_single_use_amended stAdmin nonce1 "true".toList tok1 tok1 tok1
    regRespGood regRespGood respGood respGood pkRow1 userAdminName 6
    (by decide) (by decide) (by decide) (by decide) (by decide) (by decide)
    (by decide) (by decide) (by decide) (by decide)

/-- C3: in both the ordinary and the admin authentication verification, a
reported counter that is not strictly greater than the stored one (outside
the explicit zero/zero exception) yields the cryptographic-verification
failure, the `Passkeys` table (hence the stored counter) is unchanged, and
the operation trace contains no write to the `Passkeys` table. -/
theorem counter_regression_rejected (st : St) (resp : AuthResponse) (tok ch v : Str)
    (pk : PasskeyRow)
    (hch : resp.clientChallenge = some ch)
    (hv : kvGet st.kv (challengeKey ch) = some v) (hvne : v ≠ [])
    (hpk : getPasskeyById st.db resp.credId = some pk)
    (hc1 : ¬pk.sign_counter < resp.newCounter)
    (hc2 : ¬(resp.newCounter = 0 ∧ pk.sign_counter = 0)) :
    (loginVerify st resp tok).1 = .verificationFailed ∧
    (loginVerify st resp tok).2.1.db = st.db ∧
    (loginVerify st resp tok).2.2.filter Op.writesPasskeys = [] ∧
    (adminLoginVerify st resp tok).1 = .verificationFailed ∧
    (adminLoginVerify st resp tok).2.1 = st ∧
    (adminLoginVerify st resp tok).2.2.filter Op.writesPasskeys = [] := by
  have hne := isEmpty_false_of_ne hvne
  have hM : verifyAuthenticationResponseM resp.sigValid resp.newCounter pk.sign_counter = none := by
    rw [verifyAuthenticationResponseM, if_neg]
    rintro ⟨-, h | ⟨h0, hs⟩⟩
    · exact hc1 h
    · exact hc2 ⟨h0, hs⟩
  refine ⟨?_, ?_, ?_, ?_, ?_, ?_⟩ <;>
    simp [loginVerify, adminLoginVerify, hch, getAndDeleteChallenge, hv, jsTruthy,
      jsTruthyOpt, hne, hpk, hM, Op.writesPasskeys, List.filter]

/-- Witness for C3: stored counter 5, reported counter 4 (end-to-end
scenario B of the spec). -/
theorem counter_regression_rejected_witness :
    (loginVerify stAdmin respStale tok1).1 = .verificationFailed ∧
    (loginVerify stAdmin respStale tok1).2.1.db = stAdmin.db ∧
    (loginVerify stAdmin respStale tok1).2.2.filter Op.writesPasskeys = [] ∧
    (adminLoginVerify stAdmin respStale tok1).1 = .verificationFailed ∧
    (adminLoginVerify stAdmin respStale tok1).2.1 = stAdmin ∧
    (adminLoginVerify stAdmin respStale tok1).2.2.filter Op.writesPasskeys = [] :=
  counter_regression_rejected stAdmin respStale tok1 nonce1 "true".toList pkRow1
    (by decide) (by decide) (by decide) (by decide) (by decide) (by decide)

/-- C4 fails as stated: a cryptographically successful admin login by a user
whose role is `user` is not rejected when the username is the literal
`admin` — the handler returns Verified and creates a session, and the admin
middleware likewise lets the principal proceed. -/
theorem admin_role_check_counterexample :
    userAdminName.role = "user".toList ∧
    (adminLoginVerify stAdmin respGood tok1).1 = .verified tok1 ∧
    kvGet (adminLoginVerify stAdmin respGood tok1).2.1.kv (sessionKey tok1) = some uid1 ∧
    (adminAuth (adminLoginVerify stAdmin respGood tok1).2.1 (some (bearerSp ++ tok1))).1 =
      .proceed userAdminName := by
  decide

/-- C4 amended: a cryptographically successful admin login resolving to a
user whose role is not `admin` and whose username is not the literal
`admin` yields Forbidden with the state untouched (no session is created),
and the admin middleware returns Forbidden (distinct from Unauthorized) for
every authenticated principal failing that same predicate. -/
theorem admin_role_check_amended (st : St) (resp : AuthResponse) (tok ch v : Str)
    (pk : PasskeyRow) (u : UserRow) (n : Nat)
    (hch : resp.clientChallenge = some ch)
    (hv : kvGet st.kv (challengeKey ch) = some v) (hvne : v ≠ [])
    (hpk : getPasskeyById st.db resp.credId = some pk)
    (hver : verifyAuthenticationResponseM resp.sigValid resp.newCounter pk.sign_counter = some n)
    (hu : getUserById st.db pk.user_id = some u)
    (hrole : u.role ≠ adminStr) (hname : u.username ≠ adminStr) :
    (adminLoginVerify st resp tok).1 = .forbidden ∧
    (adminLoginVerify st resp tok).2.1 = st ∧
    (∀ t uid, ' ' ∉ t → t ≠ [] → uid ≠ [] →
      kvGet st.kv (sessionKey t) = some uid →
      getUserById st.db uid = some u →
      (adminAuth st (some (bearerSp ++ t))).1 = .forbidden) := by
  have hne := isEmpty_false_of_ne hvne
  refine ⟨?_, ?_, ?_⟩
  · simp [adminLoginVerify, hch, hv, jsTruthy, jsTruthyOpt, hne, hpk, hver, hu, hrole, hname]
  · simp [adminLoginVerify, hch, hv, jsTruthy, jsTruthyOpt, hne, hpk, hver, hu, hrole, hname]
  · intro t uid hsp htne huidne hsess huser
    have hspl := jsSplit_bearer t hsp
    simp [adminAuth, hspl, jsTruthy, isEmpty_false_of_ne htne, isEmpty_false_of_ne huidne,
      hsess, huser, hrole, hname, jsIdx0, jsIdx1]

/-- Witness for C4 amended at a concrete state with a role-`user`,
username-`bob` principal. -/
theorem admin_role_check_amended_witness :
    (adminLoginVerify stBob respGood tok1).1 = .forbidden ∧
    (adminLoginVerify stBob respGood tok1).2.1 = stBob ∧
    (adminAuth stBob (some (bearerSp ++ tok1))).1 = .forbidden := by
  have h := admin_role_check_amended stBob respGood tok1 nonce1 "true".toList pkRow1 userBob 6
    (by decide) (by decide) (by decide) (by decide) (by decide) (by decide) (by decide) (by decide)
  exact ⟨h.1, h.2.1, h.2.2 tok1 uid1 (by decide) (by decide) (by decide) (by decide) (by decide)⟩

/-- C6: resolving a session token whose bound user record no longer exists
returns the invalid-session outcome of the respective path, deletes the
dangling mapping, and a second resolution with the same token again returns
the invalid-session outcome without error — on both the ordinary
(`GET /session`) and the admin (`adminAuthMiddleware`) paths. -/
theorem dangling_session_cleanup (st : St) (t uid : Str)
    (hsp : ' ' ∉ t) (htne : t ≠ []) (huidne : uid ≠ [])
    (hsess : kvGet st.kv (sessionKey t) = some uid)
    (huser : getUserById st.db uid = none) :
    (sessionGet st (some (bearerSp ++ t))).1 = .sessionInvalid ∧
    (sessionGet st (some (bearerSp ++ t))).2.1.kv = kvDelete st.kv (sessionKey t) ∧
    kvGet (sessionGet st (some (bearerSp ++ t))).2.1.kv (sessionKey t) = none ∧
    (sessionGet (sessionGet st (some (bearerSp ++ t))).2.1 (some (bearerSp ++ t))).1 =
      .sessionInvalid ∧
    (adminAuth st (some (bearerSp ++ t))).1 = .unauthorized ∧
    (adminAuth st (some (bearerSp ++ t))).2.1.kv = kvDelete st.kv (sessionKey t) ∧
    (adminAuth (adminAuth st (some (bearerSp ++ t))).2.1 (some (bearerSp ++ t))).1 =
      .unauthorized := by
  have hspl := jsSplit_bearer t hsp
  have hsw := jsStartsWith_append bearerSp t
  have hfirst : sessionGet st (some (bearerSp ++ t)) =
      (.sessionInvalid, { st with kv := kvDelete st.kv (sessionKey t) },
        [.kvGetOp (sessionKey t), .dbGetUserById uid, .kvDeleteOp (sessionKey t)]) := by
    simp [sessionGet, hsw, hspl, jsTruthy, isEmpty_false_of_ne huidne, hsess, huser, jsIdx0, jsIdx1]
  have hafirst : adminAuth st (some (bearerSp ++ t)) =
      (.unauthorized, { st with kv := kvDelete st.kv (sessionKey t) },
        [.kvGetOp (sessionKey t), .dbGetUserById uid, .kvDeleteOp (sessionKey t)]) := by
    simp [adminAuth, hspl, jsTruthy, isEmpty_false_of_ne htne, isEmpty_false_of_ne huidne,
      hsess, huser, jsIdx0, jsIdx1]
  refine ⟨by rw [hfirst], by rw [hfirst], ?_, ?_, by rw [hafirst], by rw [hafirst], ?_⟩
  · rw [hfirst]
    exact kvGet_delete_self st.kv (sessionKey t)
  · rw [hfirst]
    simp [sessionGet, hsw, hspl, kvGet_delete_self, jsIdx0, jsIdx1]
  · rw [hafirst]
    simp [adminAuth, hspl, jsTruthy, isEmpty_false_of_ne htne, kvGet_delete_self, jsIdx0, jsIdx1]

/-- Witness for C6 at a concrete dangling session. -/
theorem dangling_session_cleanup_witness :
    (sessionGet stDangling (some (bearerSp ++ tok1))).1 = .sessionInvalid ∧
    (sessionGet stDangling (some (bearerSp ++ tok1))).2.1.kv =
      kvDelete stDangling.kv (sessionKey tok1) ∧
    kvGet (sessionGet stDangling (some (bearerSp ++ tok1))).2.1.kv (sessionKey tok1) = none ∧
    (sessionGet (sessionGet stDangling (some (bearerSp ++ tok1))).2.1
      (some (bearerSp ++ tok1))).1 = .sessionInvalid ∧
    (adminAuth stDangling (some (bearerSp ++ tok1))).1 = .unauthorized ∧
    (adminAuth stDangling (some (bearerSp ++ tok1))).2.1.kv =
      kvDelete stDangling.kv (sessionKey tok1) ∧
    (adminAuth (adminAuth stDangling (some (bearerSp ++ tok1))).2.1
      (some (bearerSp ++ tok1))).1 = .unauthorized :=
  dangling_session_cleanup stDangling tok1 uid1
    (by decide) (by decide) (by decide) (by decide) (by decide)

/-- C10: session introspection with a missing header or one that does not
start with `Bearer ` returns the valid-false success outcome, not
Unauthorized; and it reports a valid session only when the presented token
maps to a stored session whose bound user record exists. -/
theorem session_introspection (st : St) :
    (sessionGet st none).1 = .sessionInvalid ∧
    (∀ h : Str, jsStartsWith h bearerSp = false → (sessionGet st (some h)).1 = .sessionInvalid) ∧
    (∀ (h : Str) (u : UserRow), (sessionGet st (some h)).1 = .sessionValid u →
      ∃ uid, kvGet st.kv (sessionKey (jsIdx1 (jsSplit ' ' h))) = some uid ∧
        getUserById st.db uid = some u) := by
  refine ⟨by simp [sessionGet], fun h hb => by simp [sessionGet, hb], ?_⟩
  intro h u hres
  by_cases hb : jsStartsWith h bearerSp = false
  · simp [sessionGet, hb] at hres
  · have hb' : jsStartsWith h bearerSp = true := by
      revert hb
      cases jsStartsWith h bearerSp <;> simp
    cases hkv : kvGet st.kv (sessionKey (jsIdx1 (jsSplit ' ' h))) with
    | none => simp [sessionGet, hb', hkv] at hres
    | some uid =>
      by_cases hte : jsTruthy uid = false
      · simp [sessionGet, hb', hkv, hte] at hres
      · cases huser : getUserById st.db uid with
        | none => simp [sessionGet, hb', hkv, hte, huser] at hres
        | some usr =>
          have husr : usr = u := by
            simp [sessionGet, hb', hkv, hte, huser] at hres
            exact hres
          exact ⟨uid, rfl, husr ▸ huser⟩

/-- Witness for C10: the valid-session direction at a concrete live state. -/
theorem session_introspection_witness :
    ∃ uid, kvGet stLive.kv (sessionKey (jsIdx1 (jsSplit ' ' (bearerSp ++ tok1)))) = some uid ∧
      getUserById stLive.db uid = some userBob :=
  (session_introspection stLive).2.2 (bearerSp ++ tok1) userBob (by decide)

/-- C5 fails as stated: issuing a registration challenge for a not-yet-taken
username/email itself creates the `Users` row — before any successful
registration ceremony has happened. -/
theorem user_creation_counterexample :
    stEmpty.db.users = [] ∧
    (registerChallenge stEmpty true "alice".toList "a@b".toList uid1 nonce1).1 =
      .challengeIssued ∧
    (registerChallenge stEmpty true "alice".toList "a@b".toList uid1 nonce1).2.1.db.users =
      [⟨uid1, "alice".toList, "a@b".toList, "user".toList⟩] := by
  decide

theorem find?_id_append {l : List UserRow} {i : Str} {u : UserRow} (hu : u.id = i)
    (h : ∀ x ∈ l, x.id ≠ i) :
    (l ++ [u]).find? (fun x => decide (x.id = i)) = some u := by
  induction l with
  | nil => simp [List.find?, hu]
  | cons y rest ih =>
    have hy : y.id ≠ i := h y (List.mem_cons_self y rest)
    simp [List.find?, hy, ih fun x hx => h x (List.mem_cons_of_mem y hx)]

/-- C5 amended: the `Users` row is created (when absent) at
challenge-issuance time by the get-or-create step, so the user id stored
with the challenge does reference an existing user record; registration
verification itself never creates a user — it only binds a new credential
to the pre-existing user. -/
theorem user_creation_amended (st : St) (username email freshId nonce : Str)
    (hnew : getUser st.db username email = none)
    (hfresh : ∀ x ∈ st.db.users, x.id ≠ freshId) :
    ((registerChallenge st true username email freshId nonce).1 = .challengeIssued ∧
     kvGet (registerChallenge st true username email freshId nonce).2.1.kv
       (challengeKey nonce) = some freshId ∧
     getUserById (registerChallenge st true username email freshId nonce).2.1.db freshId =
       some ⟨freshId, username, email, "user".toList⟩) ∧
    (∀ (resp : RegResponse) (tok : Str),
      (registerVerify st resp tok).2.1.db.users = st.db.users) := by
  constructor
  · refine ⟨?_, ?_, ?_⟩
    · simp [registerChallenge, hnew, getOrCreateUser]
    · simp [registerChallenge, hnew, getOrCreateUser, kvGet_put_self]
    · simp only [registerChallenge, hnew, getOrCreateUser, getUserById, insertUser]
      exact find?_id_append rfl hfresh
  · intro resp tok
    unfold registerVerify
    cases resp.clientChallenge with
    | none => rfl
    | some ch =>
      dsimp only
      split
      · rfl
      · split
        · rfl
        · simp [insertPasskey]

/-- Witness for C5 amended at the empty state. -/
theorem user_creation_amended_witness :
    (registerChallenge stEmpty true "alice".toList "a@b".toList uid1 nonce1).1 =
      .challengeIssued ∧
    kvGet (registerChallenge stEmpty true "alice".toList "a@b".toList uid1 nonce1).2.1.kv
      (challengeKey nonce1) = some uid1 ∧
    getUserById (registerChallenge stEmpty true "alice".toList "a@b".toList uid1 nonce1).2.1.db
      uid1 = some ⟨uid1, "alice".toList, "a@b".toList, "user".toList⟩ ∧
    (registerVerify stEmpty regRespGood tok1).2.1.db.users = stEmpty.db.users := by
  have h := user_creation_amended stEmpty "alice".toList "a@b".toList uid1 nonce1
    (by decide) (by decide)
  exact ⟨h.1.1, h.1.2.1, h.1.2.2, h.2 regRespGood tok1⟩

theorem isS3Key_pmBody (u : Str) (h : u.length ≤ 91) : isS3Key (pmBodyTag ++ u) = true := by
  have hlen8 : pmBodyTag.length = 8 := by decide
  have h1 : (pmBodyTag ++ u).length < 100 := by
    rw [List.length_append, hlen8]
    omega
  have hm : '/' ∈ pmBodyTag ++ u := List.mem_append_left u (by decide)
  have h2 : (pmBodyTag ++ u).contains '/' = true := List.elem_iff.mpr hm
  unfold isS3Key
  rw [Bool.and_eq_true, decide_eq_true_eq]
  exact ⟨h1, h2⟩

theorem conv_find?_id {l : List ConvRow} {cv : ConvRow}
    (hnd : (l.map ConvRow.id).Nodup) (hm : cv ∈ l) :
    l.find? (fun x => decide (x.id = cv.id)) = some cv := by
  induction l with
  | nil => cases hm
  | cons y rest ih =>
    rcases List.mem_cons.mp hm with rfl | hm2
    · simp [List.find?]
    · have hy : y.id ≠ cv.id := by
        intro he
        have hin : cv.id ∈ rest.map ConvRow.id := List.mem_map_of_mem ConvRow.id hm2
        exact (List.nodup_cons.mp hnd).1 (he ▸ hin)
      have hnd2 := (List.nodup_cons.mp hnd).2
      simp [List.find?, hy, ih hnd2 hm2]

theorem conv_find?_append {l : List ConvRow} {i : Nat} {cv : ConvRow} (hcv : cv.id = i)
    (h : ∀ x ∈ l, x.id ≠ i) :
    (l ++ [cv]).find? (fun x => decide (x.id = i)) = some cv := by
  induction l with
  | nil => simp [List.find?, hcv]
  | cons y rest ih =>
    have hy : y.id ≠ i := h y (List.mem_cons_self y rest)
    simp [List.find?, hy, ih fun x hx => h x (List.mem_cons_of_mem y hx)]

theorem getMessages_last (st : MsgSt) (viewer : UserRow) (cid : Nat) (row : MsgRow)
    (cv : ConvRow)
    (hconv : st.conversations.find? (fun x => decide (x.id = cid)) = some cv)
    (hpart : cv.user1_id = viewer.id ∨ cv.user2_id = viewer.id)
    (hrow : row ∈ st.messages) (hcid : row.conversation_id = cid) :
    (getMessages st viewer cid 1 st.messages.length).1 = .listOk ∧
    (⟨row.id, resolveBody st.s3 row.body⟩ : MsgOut) ∈
      (getMessages st viewer cid 1 st.messages.length).2 := by
  unfold getMessages
  rw [hconv]
  dsimp only
  rw [if_neg (not_not_intro hpart)]
  refine ⟨rfl, ?_⟩
  have hmem : row ∈ st.messages.filter fun m => decide (m.conversation_id = cid) :=
    List.mem_filter.mpr ⟨hrow, by simp [hcid]⟩
  have hle : (st.messages.filter fun m => decide (m.conversation_id = cid)).length ≤
      st.messages.length := List.length_filter_le _ _
  rw [show (1 - 1) * st.messages.length = 0 from by omega, List.drop_zero,
    List.take_of_length_le hle]
  exact List.mem_map_of_mem (fun m => (⟨m.id, resolveBody st.s3 m.body⟩ : MsgOut)) hmem

/-- C7: send-then-retrieve round-trips a private message body.  Sending
stores the body in the object store under the fresh key `pm-body/<uuid>` and
records that key in the message row; the retrieval heuristic (stored body
shorter than 100 characters and containing a slash) classifies every such
key as stored, so retrieval of the conversation returns the original text.
The freshness hypotheses on the autoincrement conversation id and the
uniqueness of conversation ids reflect the primary-key semantics of the
`Conversations` table; a UUID has 36 characters, so the length bound on the
fresh uuid (≤ 91, keeping the key under 100) always holds. -/
theorem message_roundtrip (st : MsgSt) (sender : UserRow) (ru b u : Str) (rec : UserRow)
    (hrec : st.users.find? (fun x => decide (x.username = ru)) = some rec)
    (hne : rec.id ≠ sender.id)
    (hlen : u.length ≤ 91)
    (hfresh : ∀ cv ∈ st.conversations, cv.id ≠ st.nextConvId)
    (hnd : (st.conversations.map ConvRow.id).Nodup) :
    ∃ cid, (sendMessage st sender ru b u).1 = .messageSent cid ∧
      isS3Key (pmBodyTag ++ u) = true ∧
      kvGet (sendMessage st sender ru b u).2.s3 (pmBodyTag ++ u) = some b ∧
      (getMessages (sendMessage st sender ru b u).2 sender cid 1
        (sendMessage st sender ru b u).2.messages.length).1 = .listOk ∧
      (⟨st.nextMsgId, b⟩ : MsgOut) ∈
        (getMessages (sendMessage st sender ru b u).2 sender cid 1
          (sendMessage st sender ru b u).2.messages.length).2 := by
  have hkey := isS3Key_pmBody u hlen
  suffices hsuff :
      ∃ (cid : Nat) (st2 : MsgSt) (cv : ConvRow),
        sendMessage st sender ru b u = (.messageSent cid, st2) ∧
        st2.conversations.find? (fun x => decide (x.id = cid)) = some cv ∧
        (cv.user1_id = sender.id ∨ cv.user2_id = sender.id) ∧
        st2.messages = st.messages ++ [⟨st.nextMsgId, cid, sender.id, pmBodyTag ++ u⟩] ∧
        st2.s3 = kvPut st.s3 (pmBodyTag ++ u) b by
    obtain ⟨cid, st2, cv, hsend, hconv, hpart, hmsgs, hs3⟩ := hsuff
    have hrowmem : (⟨st.nextMsgId, cid, sender.id, pmBodyTag ++ u⟩ : MsgRow) ∈ st2.messages := by
      rw [hmsgs]
      exact List.mem_append_right st.messages (List.mem_cons_self _ [])
    have hlen2 : st2.messages.length = st.messages.length + 1 := by
      rw [hmsgs, List.length_append, List.length_cons, List.length_nil]
    have hres := getMessages_last st2 sender cid
      ⟨st.nextMsgId, cid, sender.id, pmBodyTag ++ u⟩ cv hconv hpart hrowmem rfl
    have hbody : resolveBody st2.s3 (pmBodyTag ++ u) = b := by
      rw [resolveBody, if_pos hkey, hs3, kvGet_put_self]
    refine ⟨cid, by rw [hsend], hkey, ?_, ?_, ?_⟩
    · rw [hsend, hs3, kvGet_put_self]
    · rw [hsend]
      exact hres.1
    · rw [hsend]
      have hm2 := hres.2
      rwa [hbody] at hm2
  by_cases hb : strLe sender.id rec.id
  · rcases hfound : st.conversations.find? (fun cv =>
        decide (cv.user1_id = sender.id) && decide (cv.user2_id = rec.id)) with _ | cv0
    · refine ⟨st.nextConvId,
        { users := st.users,
          conversations := st.conversations ++ [⟨st.nextConvId, sender.id, rec.id⟩],
          messages :=
            st.messages ++ [⟨st.nextMsgId, st.nextConvId, sender.id, pmBodyTag ++ u⟩],
          s3 := kvPut st.s3 (pmBodyTag ++ u) b,
          nextConvId := st.nextConvId + 1,
          nextMsgId := st.nextMsgId + 1 },
        ⟨st.nextConvId, sender.id, rec.id⟩,
        by simp [sendMessage, hrec, hne, hb, hfound], ?_, Or.inl rfl, rfl, rfl⟩
      exact conv_find?_append rfl hfresh
    · have hprops := List.find?_some hfound
      have hmem0 := List.mem_of_find?_eq_some hfound
      simp only [Bool.and_eq_true, decide_eq_true_eq] at hprops
      refine ⟨cv0.id,
        { users := st.users,
          conversations := st.conversations,
          messages := st.messages ++ [⟨st.nextMsgId, cv0.id, sender.id, pmBodyTag ++ u⟩],
          s3 := kvPut st.s3 (pmBodyTag ++ u) b,
          nextConvId := st.nextConvId,
          nextMsgId := st.nextMsgId + 1 },
        cv0,
        by simp [sendMessage, hrec, hne, hb, hfound], ?_, Or.inl (by rw [hprops.1]),
        rfl, rfl⟩
      exact conv_find?_id hnd hmem0
  · rcases hfound : st.conversations.find? (fun cv =>
        decide (cv.user1_id = rec.id) && decide (cv.user2_id = sender.id)) with _ | cv0
    · refine ⟨st.nextConvId,
        { users := st.users,
          conversations := st.conversations ++ [⟨st.nextConvId, rec.id, sender.id⟩],
          messages :=
            st.messages ++ [⟨st.nextMsgId, st.nextConvId, sender.id, pmBodyTag ++ u⟩],
          s3 := kvPut st.s3 (pmBodyTag ++ u) b,
          nextConvId := st.nextConvId + 1,
          nextMsgId := st.nextMsgId + 1 },
        ⟨st.nextConvId, rec.id, sender.id⟩,
        by simp [sendMessage, hrec, hne, hb, hfound], ?_, Or.inr rfl, rfl, rfl⟩
      exact conv_find?_append rfl hfresh
    · have hprops := List.find?_some hfound
      have hmem0 := List.mem_of_find?_eq_some hfound
      simp only [Bool.and_eq_true, decide_eq_true_eq] at hprops
      refine ⟨cv0.id,
        { users := st.users,
          conversations := st.conversations,
          messages := st.messages ++ [⟨st.nextMsgId, cv0.id, sender.id, pmBodyTag ++ u⟩],
          s3 := kvPut st.s3 (pmBodyTag ++ u) b,
          nextConvId := st.nextConvId,
          nextMsgId := st.nextMsgId + 1 },
        cv0,
        by simp [sendMessage, hrec, hne, hb, hfound], ?_, Or.inr (by rw [hprops.2]),
        rfl, rfl⟩
      exact conv_find?_id hnd hmem0

/-- Witness for C7 at a concrete send. -/
theorem message_roundtrip_witness :
    ∃ cid, (sendMessage stMsg senderU "bob".toList "hi there".toList "0000".toList).1 =
        .messageSent cid ∧
      isS3Key (pmBodyTag ++ "0000".toList) = true ∧
      kvGet (sendMessage stMsg senderU "bob".toList "hi there".toList "0000".toList).2.s3
        (pmBodyTag ++ "0000".toList) = some "hi there".toList ∧
      (getMessages (sendMessage stMsg senderU "bob".toList "hi there".toList "0000".toList).2
        senderU cid 1
        (sendMessage stMsg senderU "bob".toList "hi there".toList "0000".toList).2.messages.length).1 =
        .listOk ∧
      (⟨stMsg.nextMsgId, "hi there".toList⟩ : MsgOut) ∈
        (getMessages (sendMessage stMsg senderU "bob".toList "hi there".toList "0000".toList).2
          senderU cid 1
          (sendMessage stMsg senderU "bob".toList "hi there".toList "0000".toList).2.messages.length).2 :=
  message_roundtrip stMsg senderU "bob".toList "hi there".toList "0000".toList
    ⟨"u2".toList, "bob".toList, "b@x".toList, "user".toList⟩
    (by decide) (by decide) (by decide) (by decide) (by decide)

end Bbs
